import Mathlib

/-!
Verification development for the cookie middleware of this repository
(`src/cookie.rs`): the `Jar` cookie store, the cookie parser, and the
`CookiesEnabledService` tower middleware.

Strings are modelled at the `List Char` level so that every operation is
structurally recursive and evaluable.  The parts of the behaviour that live
in external crates (`cookie`, `cookie_store`, `url`, `http`) or in modules of
the repository that are not part of the source fragment (`crate::util`,
`crate::error`) are modelled from the spec; each such definition carries a
doc comment saying so.
-/

/-! ### Character-list string helpers -/

/-- Whitespace recognized when trimming cookie parts. -/
def isWsChar (c : Char) : Bool := c == ' ' || c == '\t'

/-- Trim whitespace from both ends of a character list. -/
def trimChars (cs : List Char) : List Char :=
  ((cs.dropWhile isWsChar).reverse.dropWhile isWsChar).reverse

/-- Split a character list at every occurrence of `sep`. -/
def splitOnCharAux (sep : Char) : List Char → List Char → List (List Char)
  | [], acc => [acc.reverse]
  | c :: rest, acc =>
    if c == sep then acc.reverse :: splitOnCharAux sep rest []
    else splitOnCharAux sep rest (c :: acc)

/-- Split a character list at every occurrence of `sep`. -/
def splitOnChar (sep : Char) (cs : List Char) : List (List Char) :=
  splitOnCharAux sep cs []

/-- Split at the first occurrence of `sep`; `none` when `sep` is absent. -/
def splitFirstChar (sep : Char) : List Char → Option (List Char × List Char)
  | [] => none
  | c :: rest =>
    if c == sep then some ([], rest)
    else (splitFirstChar sep rest).map (fun p => (c :: p.1, p.2))

/-- Lowercase every character. -/
def lowerChars (cs : List Char) : List Char := cs.map Char.toLower

/-- Read a decimal digit string, accumulator style. -/
def digitsToNatAux : List Char → Nat → Option Nat
  | [], acc => some acc
  | c :: rest, acc =>
    if c.isDigit then digitsToNatAux rest (acc * 10 + (c.toNat - 48)) else none

/-- Read an optionally negated decimal integer. -/
def charsToInt : List Char → Option Int
  | [] => none
  | '-' :: rest =>
    match rest with
    | [] => none
    | _ => (digitsToNatAux rest 0).map (fun n => -(n : Int))
  | cs => (digitsToNatAux cs 0).map (fun n => (n : Int))

/-! ### Data model -/

/-- The SameSite directive values (`cookie.rs` lines 77-85; informational). -/
inductive SameSite where
  | strict
  | lax
  | noneValue
deriving DecidableEq

/-- A parsed URL, as produced by the `url` crate: scheme, host and path.
Only the components the cookie logic consults are modelled. -/
structure Url where
  scheme : String
  host : String
  path : String
deriving DecidableEq

/-- The result of parsing one `Set-Cookie` header text: the name/value pair
plus the attributes the store consults (`cookie.rs` `Cookie` accessors,
lines 48-112). -/
structure ParsedCookie where
  name : String
  value : String
  domain : Option String
  path : Option String
  secure : Bool
  httpOnly : Bool
  sameSite : Option SameSite
  maxAge : Option Int
  expiresAt : Option Int
deriving DecidableEq

/-- One stored cookie record, after resolving Domain/Path against the
ingestion URL.  Modelled from the spec: the record kept by the external
`cookie_store::CookieStore`, keyed by (domain-or-host, path, name). -/
structure CookieRecord where
  name : String
  value : String
  domain : String
  hostOnly : Bool
  path : String
  secure : Bool
  httpOnly : Bool
  sameSite : Option SameSite
  expiresAt : Option Int
deriving DecidableEq

/-! ### Cookie parsing -/

/-- Strip one leading dot from a Domain attribute value. -/
def stripLeadingDot (cs : List Char) : List Char :=
  match cs with
  | '.' :: rest => rest
  | _ => cs

/-- Parse a SameSite attribute value, case-insensitively. -/
def parseSameSiteVal (cs : List Char) : Option SameSite :=
  let l := lowerChars cs
  if l == "strict".toList then some SameSite.strict
  else if l == "lax".toList then some SameSite.lax
  else if l == "none".toList then some SameSite.noneValue
  else none

/-- Apply one semicolon-separated attribute to a parsed cookie.  Modelled from
the spec: attribute handling of the external cookie parser — Domain, Path,
Secure, HttpOnly, SameSite, Max-Age, Expires; unknown attributes ignored;
`Expires` dates abstracted to integer timestamps. -/
def applyAttr (c : ParsedCookie) (part : List Char) : ParsedCookie :=
  let p := trimChars part
  let low := lowerChars p
  if low == "secure".toList then { c with secure := true }
  else if low == "httponly".toList then { c with httpOnly := true }
  else
    match splitFirstChar '=' p with
    | none => c
    | some (k, v) =>
      let key := lowerChars (trimChars k)
      let val := trimChars v
      if key == "domain".toList then
        (if val.isEmpty then c
         else { c with domain := some (String.mk (stripLeadingDot val)) })
      else if key == "path".toList then
        (if val.isEmpty then c else { c with path := some (String.mk val) })
      else if key == "max-age".toList then
        (match charsToInt val with
         | some n => { c with maxAge := some n }
         | none => c)
      else if key == "expires".toList then
        (match charsToInt val with
         | some n => { c with expiresAt := some n }
         | none => c)
      else if key == "samesite".toList then
        (match parseSameSiteVal val with
         | some ss => { c with sameSite := some ss }
         | none => c)
      else c

/-- `Cookie::parse` (`cookie.rs` lines 49-55): UTF-8 decoding (implicit for
`String` input) followed by the external cookie parser, modelled from the
spec: the first `=` splits the non-empty name from the value, and the
remaining semicolon-separated attributes are applied in order. -/
def Cookie.parse (s : String) : Option ParsedCookie :=
  match splitOnChar ';' s.toList with
  | [] => none
  | first :: attrs =>
    match splitFirstChar '=' first with
    | none => none
    | some (n, v) =>
      let name := trimChars n
      let value := trimChars v
      if name.isEmpty then none
      else some (attrs.foldl applyAttr
        { name := String.mk name, value := String.mk value, domain := none,
          path := none, secure := false, httpOnly := false, sameSite := none,
          maxAge := none, expiresAt := none })

/-! ### The cookie store (modelled from the spec) -/

/-- Modelled from the spec: the default path of a cookie with no Path
attribute is derived from the ingestion URL's path, up to but not including
the last `/` (root scope when that would be empty or the path is not
absolute). -/
def defaultPath (p : String) : String :=
  match p.toList with
  | '/' :: _ =>
    (match p.toList.reverse.dropWhile (fun c => !(c == '/')) with
     | [] => "/"
     | _ :: rest => if rest.isEmpty then "/" else String.mk rest.reverse)
  | _ => "/"

/-- Modelled from the spec: resolving a parsed cookie against the ingestion
URL — missing Domain makes the record host-only and bound to the URL's host,
missing Path falls back to the default path, and Max-Age (relative to the
ingestion time `now`) takes precedence over Expires. -/
def resolveCookie (c : ParsedCookie) (url : Url) (now : Int) : CookieRecord :=
  { name := c.name
    value := c.value
    domain := c.domain.getD url.host
    hostOnly := c.domain.isNone
    path := c.path.getD (defaultPath url.path)
    secure := c.secure
    httpOnly := c.httpOnly
    sameSite := c.sameSite
    expiresAt :=
      match c.maxAge with
      | some ma => some (now + ma)
      | none => c.expiresAt }

/-- The stored state of the external `cookie_store::CookieStore` guarded by
the `RwLock` inside a `Jar`, in insertion order. -/
abbrev JarState := List CookieRecord

/-- Modelled from the spec: two records collide exactly when their
(domain-or-host, path, name) keys agree. -/
def sameKey (a b : CookieRecord) : Bool :=
  a.domain == b.domain && a.path == b.path && a.name == b.name

/-- Modelled from the spec: insert a record, replacing in place a previous
record with the same key (last-write-wins) and appending otherwise. -/
def upsert : JarState → CookieRecord → JarState
  | [], r => [r]
  | x :: xs, r => if sameKey r x then r :: xs else x :: upsert xs r

/-- Modelled from the spec: `cookie_store::CookieStore::store_response_cookies`
— resolve each parsed cookie against the URL and upsert it by key. -/
def store_response_cookies (st : JarState) (cs : List ParsedCookie)
    (url : Url) (now : Int) : JarState :=
  cs.foldl (fun acc c => upsert acc (resolveCookie c url now)) st

/-- Modelled from the spec: a record's domain matches the request host when
host-only and equal to the host, or otherwise when equal to the host or a
dot-prefixed suffix of it. -/
def domainMatches (r : CookieRecord) (host : String) : Bool :=
  if r.hostOnly then r.domain == host
  else r.domain == host || ('.' :: r.domain.toList).isSuffixOf host.toList

/-- Modelled from the spec: a record is rendered for a request URL when it is
not expired at the query time, its domain matches the host, its path is a
prefix of the URL's path, and its Secure flag is compatible with the
scheme. -/
def cookieMatches (r : CookieRecord) (url : Url) (now : Int) : Bool :=
  (match r.expiresAt with
   | some t => decide (now < t)
   | none => true)
  && domainMatches r url.host
  && r.path.toList.isPrefixOf url.path.toList
  && (!r.secure || url.scheme == "https")

/-- Insert into a list sorted by decreasing path length, stably. -/
def insertByPathLen (r : CookieRecord) : List CookieRecord → List CookieRecord
  | [] => [r]
  | x :: xs =>
    if x.path.length > r.path.length then x :: insertByPathLen r xs
    else r :: x :: xs

/-- Modelled from the spec: stable sort putting longer (more specific) paths
first, preserving insertion order among equal lengths. -/
def sortByPathLen : List CookieRecord → List CookieRecord
  | [] => []
  | x :: xs => insertByPathLen x (sortByPathLen xs)

/-- Modelled from the spec: `cookie_store::CookieStore::get_request_values` —
the (name, value) pairs of the matching, non-expired records, longer paths
first. -/
def Jar.get_request_values (st : JarState) (url : Url) (now : Int) :
    List (String × String) :=
  (sortByPathLen (st.filter (fun r => cookieMatches r url now))).map
    (fun r => (r.name, r.value))

/-! ### The `Jar` store operations (`cookie.rs` lines 139-220) -/

/-- `Jar::set_cookies` (`cookie.rs` lines 197-202): parse every header value,
dropping the ones that fail to parse, and store the rest for `url`. -/
def Jar.set_cookies (st : JarState) (cookie_headers : List String)
    (url : Url) (now : Int) : JarState :=
  store_response_cookies st (cookie_headers.filterMap Cookie.parse) url now

/-- `Jar::add_cookie_str` (`cookie.rs` lines 155-161): parse one cookie text
(zero or one records) and store it for `url`. -/
def Jar.add_cookie_str (st : JarState) (cookie : String) (url : Url)
    (now : Int) : JarState :=
  store_response_cookies st (Cookie.parse cookie).toList url now

/-- The text `name=value` of one rendered pair
(`format!("{name}={value}")` in `cookie.rs` line 210). -/
def fmtPairCs (p : String × String) : List Char :=
  p.1.toList ++ '=' :: p.2.toList

/-- `Vec::join("; ")` on the rendered pairs (`cookie.rs` line 212). -/
def joinCs : List (List Char) → List Char
  | [] => []
  | [x] => x
  | x :: y :: rest => x ++ ';' :: ' ' :: joinCs (y :: rest)

/-- Modelled from the spec: validity of a header value byte, as checked by
`HeaderValue::from_maybe_shared` — horizontal tab or a visible byte that is
neither a control character nor DEL. -/
def isValidHeaderCs (cs : List Char) : Bool :=
  cs.all (fun c => c == '\t' || (decide (32 ≤ c.toNat) && c.toNat != 127))

/-- `Jar::cookies` (`cookie.rs` lines 204-219): render the matching pairs as
`name=value` joined by `"; "`; return `none` for the empty text and when the
text is not a valid header value. -/
def Jar.cookies (st : JarState) (url : Url) (now : Int) : Option String :=
  let s := joinCs ((Jar.get_request_values st url now).map fmtPairCs)
  if s.isEmpty then none
  else if isValidHeaderCs s then some (String.mk s) else none

/-! ### The heap of lock cells, for `Clone` aliasing claims -/

/-- The collection of live `RwLock<cookie_store::CookieStore>` cells: each
`Jar` owns exactly one cell, identified by its index. -/
structure Heap where
  cells : List JarState
deriving DecidableEq

/-- Read the state of cell `i`. -/
def Heap.read (h : Heap) (i : Nat) : JarState := h.cells.getD i []

/-- Overwrite the state of cell `i`. -/
def Heap.write (h : Heap) (i : Nat) (s : JarState) : Heap :=
  ⟨h.cells.set i s⟩

/-- Allocate a fresh cell holding `s`; returns the new heap and the fresh
cell's index. -/
def Heap.alloc (h : Heap) (s : JarState) : Heap × Nat :=
  (⟨h.cells ++ [s]⟩, h.cells.length)

/-- `impl Clone for Jar` (`cookie.rs` lines 41-45): a new `RwLock` cell
holding a copy of the current locked state. -/
def Jar.clone (h : Heap) (i : Nat) : Heap × Nat :=
  h.alloc (h.read i)

/-- `Jar::set_cookies` performed through a heap cell: lock the cell, mutate
its state, write it back. -/
def Jar.set_cookies_at (h : Heap) (i : Nat) (cookie_headers : List String)
    (url : Url) (now : Int) : Heap :=
  h.write i (Jar.set_cookies (h.read i) cookie_headers url now)

/-! ### The middleware (`cookie.rs` lines 221-308) -/

/-- Modelled from the spec: the error-kind tag of `crate::error::Kind` (not
in the source fragment); only the variant the cookie middleware uses plus a
second variant so the type is not degenerate. -/
inductive Kind where
  | body
  | request
deriving DecidableEq

/-- Modelled from the spec: `crate::error::Error` (not in the source
fragment) — an error kind plus an optional message, as built by
`Error::new(Kind::Body, Some(..))`. -/
structure Error where
  kind : Kind
  msg : Option String
deriving DecidableEq

/-- An HTTP request: its URI text and its headers (lowercase names); the
body is opaque. -/
structure Request where
  uri : String
  headers : List (String × String)
  body : String
deriving DecidableEq

/-- An HTTP response: status, headers (lowercase names) and body. -/
structure Response where
  status : Nat
  headers : List (String × String)
  body : String
deriving DecidableEq

/-- The readiness signal of `Service::poll_ready`. -/
inductive Poll (α : Type) where
  | ready (a : α)
  | pending
deriving DecidableEq

/-- `CookiesEnabledService` (`cookie.rs` lines 223-230): a handle to the
shared `Arc<Jar>` store cell plus the wrapped inner service, modelled by the
function giving the eventual result of its `call` future and by its
`poll_ready` behaviour. -/
structure CookiesEnabledService (Ctx : Type) where
  store : Nat
  inner_call : Request → Except Error Response
  inner_poll_ready : Ctx → Poll (Except Error Unit)

/-- Modelled from the spec: `url::Url::parse` (external crate) restricted to
what the middleware needs — an absolute URL `scheme://host/path`, with the
empty path normalized to `/`. -/
def parseUrl (s : String) : Option Url :=
  match splitFirstChar ':' s.toList with
  | none => none
  | some (schemeCs, rest) =>
    match rest with
    | '/' :: '/' :: hostAndPath =>
      if schemeCs.isEmpty then none
      else
        let hostCs := hostAndPath.takeWhile (fun c => !(c == '/'))
        let pathCs := hostAndPath.dropWhile (fun c => !(c == '/'))
        if hostCs.isEmpty then none
        else some { scheme := String.mk schemeCs, host := String.mk hostCs,
                    path := if pathCs.isEmpty then "/" else String.mk pathCs }
    | _ => none

/-- Replace any previous value of header `name` with `v`. -/
def setHeaderVal (headers : List (String × String)) (name v : String) :
    List (String × String) :=
  headers.filter (fun p => p.1 != name) ++ [(name, v)]

/-- Modelled from the spec: `crate::util::add_cookie_header` (not in the
source fragment) — query the store for the URL and, when any cookies match,
set the request's Cookie header, overwriting any prior value. -/
def add_cookie_header (headers : List (String × String)) (st : JarState)
    (url : Url) (now : Int) : List (String × String) :=
  match Jar.cookies st url now with
  | some v => setHeaderVal headers "cookie" v
  | none => headers

/-- All values of header `name`, in order (`HeaderMap::get_all`). -/
def getAllHeaders (headers : List (String × String)) (name : String) :
    List String :=
  (headers.filter (fun p => p.1 == name)).map (fun p => p.2)

/-- The ingestion performed by `Jar::set_cookies_from_response_headers`
(`cookie.rs` lines 180-193): when the response carries at least one
`set-cookie` header, store them all for `url`. -/
def ingestFromResponse (st : JarState) (headers : List (String × String))
    (url : Url) (now : Int) : JarState :=
  let cs := getAllHeaders headers "set-cookie"
  if cs.isEmpty then st else Jar.set_cookies st cs url now

/-- `Jar::set_cookies_from_response_headers` (`cookie.rs` lines 180-193):
always returns `Ok(())`; the state change is `ingestFromResponse`. -/
def set_cookies_from_response_headers (st : JarState)
    (headers : List (String × String)) (url : Url) (now : Int) :
    Except Error JarState :=
  Except.ok (ingestFromResponse st headers url now)

/-- The observable outcome of one `CookiesEnabledService::call`: a panic (an
`expect` firing), a response, or an error returned to the caller. -/
inductive CallOutcome where
  | panicked (msg : String)
  | ok (res : Response)
  | err (e : Error)
deriving DecidableEq

/-- `CookiesEnabledService::call` (`cookie.rs` lines 263-287): parse the
request URI (`expect("invalid URL")` on failure), attach the stored cookies
to the request headers, delegate to the inner service, and on success ingest
the response's `set-cookie` headers into the shared store; an inner error is
replaced by a fresh `Kind::Body` error and the store is left untouched. -/
def CookiesEnabledService.call {Ctx : Type} (h : Heap)
    (svc : CookiesEnabledService Ctx) (req : Request) (now : Int) :
    Heap × CallOutcome :=
  match parseUrl req.uri with
  | none => (h, CallOutcome.panicked "invalid URL")
  | some url =>
    match svc.inner_call
        { req with
          headers := add_cookie_header req.headers (h.read svc.store) url now } with
    | Except.ok res =>
      match set_cookies_from_response_headers (h.read svc.store) res.headers
          url now with
      | Except.ok st2 => (h.write svc.store st2, CallOutcome.ok res)
      | Except.error _ =>
        (h, CallOutcome.panicked "error set cookies from response")
    | Except.error _ =>
      (h, CallOutcome.err
        { kind := Kind.body,
          msg := some "error extract response in cookie service" })

/-- `CookiesEnabledService::poll_ready` (`cookie.rs` lines 289-294): forward
the inner service's readiness signal. -/
def CookiesEnabledService.poll_ready {Ctx : Type}
    (svc : CookiesEnabledService Ctx) (cx : Ctx) :
    Poll (Except Error Unit) :=
  svc.inner_poll_ready cx

/-- `impl Clone for CookiesEnabledService` (`cookie.rs` lines 296-308):
`Arc::new(self.store.as_ref().clone())` — a fresh cell holding a copy of the
store, plus a clone of the inner service. -/
def CookiesEnabledService.clone {Ctx : Type} (h : Heap)
    (svc : CookiesEnabledService Ctx) :
    Heap × CookiesEnabledService Ctx :=
  ((Jar.clone h svc.store).1, { svc with store := (Jar.clone h svc.store).2 })

/-! ### Helper lemmas -/

theorem sameKey_refl (r : CookieRecord) : sameKey r r = true := by
  simp [sameKey]

theorem upsert_idem (st : JarState) (r : CookieRecord) :
    upsert (upsert st r) r = upsert st r := by
  induction st with
  | nil => simp [upsert, sameKey_refl]
  | cons x xs ih =>
    by_cases h : sameKey r x = true
    · simp [upsert, h, sameKey_refl]
    · simp [upsert, h, ih]

theorem filterMap_filter_isSome {α β : Type} (f : α → Option β) (l : List α) :
    (l.filter (fun a => (f a).isSome)).filterMap f = l.filterMap f := by
  induction l with
  | nil => rfl
  | cons x xs ih =>
    cases hx : f x with
    | none => simp [List.filter, List.filterMap, hx, ih]
    | some b => simp [List.filter, List.filterMap, hx, ih]

theorem sameKey_of_sameKey {a b x : CookieRecord}
    (ha : sameKey a x = true) (hb : sameKey b x = true) :
    sameKey a b = true := by
  simp only [sameKey, Bool.and_eq_true, beq_iff_eq] at *
  exact ⟨⟨ha.1.1.trans hb.1.1.symm, ha.1.2.trans hb.1.2.symm⟩,
    ha.2.trans hb.2.symm⟩

theorem upsert_key_mem (st : JarState) (r : CookieRecord) :
    ∃ x ∈ upsert st r, sameKey r x = true := by
  induction st with
  | nil => exact ⟨r, by simp [upsert], sameKey_refl r⟩
  | cons y ys ih =>
    by_cases h : sameKey r y = true
    · exact ⟨r, by simp [upsert, h], sameKey_refl r⟩
    · obtain ⟨x, hx, hk⟩ := ih
      exact ⟨x, by simp [upsert, h, hx], hk⟩

theorem upsert_preserves_key (st : JarState) (r r2 : CookieRecord)
    (h : ∃ x ∈ st, sameKey r x = true) :
    ∃ x ∈ upsert st r2, sameKey r x = true := by
  induction st with
  | nil => simp at h
  | cons y ys ih =>
    obtain ⟨x, hx, hk⟩ := h
    by_cases hr : sameKey r2 y = true
    · rcases List.mem_cons.mp hx with rfl | hmem
      · exact ⟨r2, by simp [upsert, hr], sameKey_of_sameKey hk hr⟩
      · exact ⟨x, by simp [upsert, hr, hmem], hk⟩
    · rcases List.mem_cons.mp hx with rfl | hmem
      · exact ⟨x, by simp [upsert, hr], hk⟩
      · obtain ⟨z, hz, hzk⟩ := ih ⟨x, hmem, hk⟩
        exact ⟨z, by simp [upsert, hr]; right; exact hz, hzk⟩

theorem store_preserves_key (cs : List ParsedCookie) (st : JarState)
    (r : CookieRecord) (url : Url) (now : Int)
    (h : ∃ x ∈ st, sameKey r x = true) :
    ∃ x ∈ store_response_cookies st cs url now, sameKey r x = true := by
  induction cs generalizing st with
  | nil => exact h
  | cons c cs ih =>
    exact ih _ (upsert_preserves_key st r (resolveCookie c url now) h)

theorem store_mem_key (cs : List ParsedCookie) (st : JarState) (c : ParsedCookie)
    (url : Url) (now : Int) (hc : c ∈ cs) :
    ∃ x ∈ store_response_cookies st cs url now,
      sameKey (resolveCookie c url now) x = true := by
  induction cs generalizing st with
  | nil => simp at hc
  | cons d ds ih =>
    rcases List.mem_cons.mp hc with rfl | hmem
    · exact store_preserves_key ds _ _ url now
        (upsert_key_mem st (resolveCookie c url now))
    · exact ih _ hmem

theorem insertByPathLen_ne_nil (r : CookieRecord) (l : List CookieRecord) :
    insertByPathLen r l ≠ [] := by
  cases l with
  | nil => simp [insertByPathLen]
  | cons x xs =>
    by_cases h : x.path.length > r.path.length
    · simp [insertByPathLen, h]
    · simp [insertByPathLen, h]

theorem sortByPathLen_eq_nil (l : List CookieRecord) :
    sortByPathLen l = [] ↔ l = [] := by
  cases l with
  | nil => simp [sortByPathLen]
  | cons x xs =>
    simp only [sortByPathLen]
    exact ⟨fun h => absurd h (insertByPathLen_ne_nil x (sortByPathLen xs)),
      fun h => by simp at h⟩

theorem get_request_values_eq_nil (st : JarState) (url : Url) (now : Int) :
    Jar.get_request_values st url now = [] ↔
      ∀ r ∈ st, cookieMatches r url now = false := by
  simp only [Jar.get_request_values, List.map_eq_nil_iff, sortByPathLen_eq_nil,
    List.filter_eq_nil_iff]
  constructor
  · intro h r hr
    exact Bool.eq_false_iff.mpr (h r hr)
  · intro h r hr
    exact Bool.eq_false_iff.mp (h r hr)

theorem fmtPairCs_ne_nil (p : String × String) : fmtPairCs p ≠ [] := by
  simp [fmtPairCs]

theorem joinCs_fmt_ne_nil (ps : List (String × String)) (h : ps ≠ []) :
    joinCs (ps.map fmtPairCs) ≠ [] := by
  cases ps with
  | nil => exact absurd rfl h
  | cons p rest =>
    cases rest with
    | nil => simpa [joinCs] using fmtPairCs_ne_nil p
    | cons q rest2 => simp [joinCs, fmtPairCs]

theorem getD_set_ne {α : Type} (l : List α) (i j : Nat) (a d : α)
    (hij : i ≠ j) : (l.set i a).getD j d = l.getD j d := by
  induction l generalizing i j with
  | nil => simp
  | cons x xs ih =>
    cases i with
    | zero =>
      cases j with
      | zero => exact absurd rfl hij
      | succ j => simp
    | succ i =>
      cases j with
      | zero => simp
      | succ j =>
        simp only [List.set_cons_succ, List.getD_cons_succ]
        exact ih i j (fun h => hij (by rw [h]))

theorem getD_append_len {α : Type} (l : List α) (a d : α) :
    (l ++ [a]).getD l.length d = a := by
  induction l with
  | nil => simp
  | cons x xs ih => simp [ih]

theorem getD_append_lt {α : Type} (l : List α) (a d : α) (i : Nat)
    (h : i < l.length) : (l ++ [a]).getD i d = l.getD i d := by
  induction l generalizing i with
  | nil => simp at h
  | cons x xs ih =>
    cases i with
    | zero => simp
    | succ i => simpa using ih i (by simpa using h)

theorem Heap.read_write_ne (h : Heap) (i j : Nat) (s : JarState)
    (hij : i ≠ j) : (h.write i s).read j = h.read j :=
  getD_set_ne h.cells i j s [] hij

theorem Heap.read_clone_fresh (h : Heap) (i : Nat) :
    (Jar.clone h i).1.read (Jar.clone h i).2 = h.read i :=
  getD_append_len h.cells (h.read i) []

theorem Heap.read_clone_old (h : Heap) (i j : Nat)
    (hj : j < h.cells.length) : (Jar.clone h i).1.read j = h.read j :=
  getD_append_lt h.cells (h.read i) [] j hj

theorem call_preserves_other_cell {Ctx : Type} (h : Heap)
    (svc : CookiesEnabledService Ctx) (req : Request) (now : Int) (j : Nat)
    (hj : j ≠ svc.store) :
    ((CookiesEnabledService.call h svc req now).1).read j = h.read j := by
  unfold CookiesEnabledService.call
  cases hp : parseUrl req.uri with
  | none => rfl
  | some url =>
    cases hin : svc.inner_call
        { req with
          headers := add_cookie_header req.headers (h.read svc.store) url now } with
    | ok res =>
      simp only [hin, set_cookies_from_response_headers]
      exact Heap.read_write_ne h svc.store j _ (fun hh => hj hh.symm)
    | error e => simp only [hin]

theorem Jar.cookies_eq (st : JarState) (url : Url) (now : Int) :
    Jar.cookies st url now =
      (if (joinCs ((Jar.get_request_values st url now).map fmtPairCs)).isEmpty
       then none
       else if isValidHeaderCs
           (joinCs ((Jar.get_request_values st url now).map fmtPairCs))
         then some (String.mk
           (joinCs ((Jar.get_request_values st url now).map fmtPairCs)))
         else none) := rfl

/-! ### Concrete fixtures used by witnesses and the counterexample -/

/-- A secure https URL for witnesses. -/
def urlW : Url := { scheme := "https", host := "a.test", path := "/" }

/-- A request whose URI parses to `urlW`. -/
def reqW : Request := { uri := "https://a.test/", headers := [], body := "" }

/-- A request whose URI is not a well-formed absolute URL. -/
def reqBadW : Request := { uri := "notaurl", headers := [], body := "" }

/-- A response carrying one `set-cookie` header. -/
def resW : Response :=
  { status := 200, headers := [("set-cookie", "sid=7")], body := "" }

/-- A sample inner-handler error. -/
def errW : Error := { kind := Kind.request, msg := none }

/-- An inner service that always succeeds with `resW`. -/
def svcOkW : CookiesEnabledService Unit :=
  { store := 0, inner_call := fun _ => Except.ok resW,
    inner_poll_ready := fun _ => Poll.pending }

/-- An inner service that always fails with `errW`. -/
def svcErrW : CookiesEnabledService Unit :=
  { store := 0, inner_call := fun _ => Except.error errW,
    inner_poll_ready := fun _ => Poll.pending }

/-- A one-cell heap whose cell is the empty store. -/
def heapW : Heap := ⟨[[]]⟩

/-- A sample stored record: `a=b` for host `a.test`, any scheme. -/
def recW : CookieRecord :=
  { name := "a", value := "b", domain := "a.test", hostOnly := true,
    path := "/", secure := false, httpOnly := false, sameSite := none,
    expiresAt := none }

/-- A one-cell heap whose cell holds `recW`. -/
def heap1 : Heap := ⟨[[recW]]⟩

/-! ### Claim theorems -/

/-- Claim C5: ingesting the same Set-Cookie text twice via `set_cookies` for
the same URL leaves both the store state and every `cookies` query result
equal to ingesting it once — the second ingest overwrites the record
identically. -/
theorem set_cookies_idempotent (st : JarState) (T : String) (U : Url)
    (now : Int) (U2 : Url) (now2 : Int) :
    Jar.set_cookies (Jar.set_cookies st [T] U now) [T] U now
      = Jar.set_cookies st [T] U now ∧
    Jar.cookies (Jar.set_cookies (Jar.set_cookies st [T] U now) [T] U now)
        U2 now2
      = Jar.cookies (Jar.set_cookies st [T] U now) U2 now2 := by
  have hstate : Jar.set_cookies (Jar.set_cookies st [T] U now) [T] U now
      = Jar.set_cookies st [T] U now := by
    cases hp : Cookie.parse T with
    | none =>
      simp [Jar.set_cookies, List.filterMap_cons, hp, store_response_cookies]
    | some c =>
      simp [Jar.set_cookies, List.filterMap_cons, hp, store_response_cookies,
        upsert_idem]
  exact ⟨hstate, by rw [hstate]⟩

/-- Claim C9: the middleware's `poll_ready` is exactly the inner handler's
`poll_ready`, independent of the cookie store, adding no flow control. -/
theorem poll_ready_forwards (Ctx : Type) (svc : CookiesEnabledService Ctx)
    (cx : Ctx) :
    CookiesEnabledService.poll_ready svc cx = svc.inner_poll_ready cx ∧
    ∀ n : Nat,
      CookiesEnabledService.poll_ready { svc with store := n } cx
        = CookiesEnabledService.poll_ready svc cx :=
  ⟨rfl, fun _ => rfl⟩

/-- Claim C7: when the request URI does not parse as an absolute URL, `call`
ends at once with the `expect("invalid URL")` panic: for every store heap and
every inner service the outcome is the same, the heap is untouched, and no
cookie query, attachment, ingestion or delegation happens. -/
theorem malformed_url_panics (Ctx : Type) (h : Heap)
    (svc : CookiesEnabledService Ctx) (req : Request) (now : Int)
    (hu : parseUrl req.uri = none) :
    CookiesEnabledService.call h svc req now
      = (h, CallOutcome.panicked "invalid URL") := by
  unfold CookiesEnabledService.call
  rw [hu]

/-- Witness for C7 at a concrete malformed request. -/
theorem malformed_url_panics_witness :
    parseUrl reqBadW.uri = none ∧
    CookiesEnabledService.call heapW svcErrW reqBadW 0
      = (heapW, CallOutcome.panicked "invalid URL") :=
  ⟨by decide, malformed_url_panics Unit heapW svcErrW reqBadW 0 (by decide)⟩

/-- Claim C2: when the inner handler errors, `call` leaves the store heap
untouched (no cookie ingestion) and returns the bookkeeping-layer
`Kind::Body` error built in the middleware; the returned error is the same
for every underlying inner error. -/
theorem inner_error_no_ingest (Ctx : Type) (h : Heap)
    (svc : CookiesEnabledService Ctx) (req : Request) (now : Int) (url : Url)
    (e : Error)
    (hu : parseUrl req.uri = some url)
    (herr : svc.inner_call
        { req with
          headers := add_cookie_header req.headers (h.read svc.store) url now }
      = Except.error e) :
    CookiesEnabledService.call h svc req now
      = (h, CallOutcome.err
          { kind := Kind.body,
            msg := some "error extract response in cookie service" }) := by
  unfold CookiesEnabledService.call
  rw [hu]
  simp only [herr]

/-- Witness for C2: a failing inner handler behind a concrete request. -/
theorem inner_error_no_ingest_witness :
    parseUrl reqW.uri = some urlW ∧
    svcErrW.inner_call
        { reqW with
          headers := add_cookie_header reqW.headers (heapW.read svcErrW.store)
            urlW 0 }
      = Except.error errW ∧
    CookiesEnabledService.call heapW svcErrW reqW 0
      = (heapW, CallOutcome.err
          { kind := Kind.body,
            msg := some "error extract response in cookie service" }) :=
  ⟨by decide, rfl,
    inner_error_no_ingest Unit heapW svcErrW reqW 0 urlW errW (by decide) rfl⟩

/-- Claim C3: when the inner handler succeeds, `call` returns the inner
response value itself, unmodified; the only effect is writing the ingested
`set-cookie` headers back into the store cell. -/
theorem inner_ok_response_unmodified (Ctx : Type) (h : Heap)
    (svc : CookiesEnabledService Ctx) (req : Request) (now : Int) (url : Url)
    (res : Response)
    (hu : parseUrl req.uri = some url)
    (hok : svc.inner_call
        { req with
          headers := add_cookie_header req.headers (h.read svc.store) url now }
      = Except.ok res) :
    CookiesEnabledService.call h svc req now
      = (h.write svc.store
          (ingestFromResponse (h.read svc.store) res.headers url now),
        CallOutcome.ok res) := by
  unfold CookiesEnabledService.call
  rw [hu]
  simp only [hok, set_cookies_from_response_headers]

/-- Witness for C3: a succeeding inner handler behind a concrete request. -/
theorem inner_ok_response_unmodified_witness :
    parseUrl reqW.uri = some urlW ∧
    svcOkW.inner_call
        { reqW with
          headers := add_cookie_header reqW.headers (heapW.read svcOkW.store)
            urlW 0 }
      = Except.ok resW ∧
    CookiesEnabledService.call heapW svcOkW reqW 0
      = (heapW.write svcOkW.store
          (ingestFromResponse (heapW.read svcOkW.store) resW.headers urlW 0),
        CallOutcome.ok resW) :=
  ⟨by decide, rfl,
    inner_ok_response_unmodified Unit heapW svcOkW reqW 0 urlW resW
      (by decide) rfl⟩

/-- Claim C8: cloning a `Jar` allocates a fresh lock cell holding a copy of
the current state: query results agree at the moment of cloning, and a later
`set_cookies` through either cell leaves the other cell's state — hence its
query results — unchanged. -/
theorem jar_clone_independent (h : Heap) (i : Nat)
    (hi : i < h.cells.length) :
    (Jar.clone h i).1.read (Jar.clone h i).2 = h.read i ∧
    (Jar.clone h i).2 ≠ i ∧
    (∀ hdrs url now,
      (Jar.set_cookies_at (Jar.clone h i).1 i hdrs url now).read
          (Jar.clone h i).2
        = h.read i) ∧
    (∀ hdrs url now,
      (Jar.set_cookies_at (Jar.clone h i).1 (Jar.clone h i).2 hdrs url
          now).read i
        = h.read i) ∧
    (∀ url now,
      Jar.cookies ((Jar.clone h i).1.read (Jar.clone h i).2) url now
        = Jar.cookies (h.read i) url now) := by
  have hne : (Jar.clone h i).2 ≠ i := Ne.symm (Nat.ne_of_lt hi)
  have hr := Heap.read_clone_fresh h i
  refine ⟨hr, hne, ?_, ?_, ?_⟩
  · intro hdrs url now
    rw [Jar.set_cookies_at,
      Heap.read_write_ne _ _ _ _ (fun hh => hne hh.symm)]
    exact hr
  · intro hdrs url now
    rw [Jar.set_cookies_at, Heap.read_write_ne _ _ _ _ hne]
    exact Heap.read_clone_old h i i hi
  · intro url now
    rw [hr]

/-- Witness for C8 at a concrete one-record heap. -/
theorem jar_clone_independent_witness :
    0 < heap1.cells.length ∧
    (Jar.clone heap1 0).1.read (Jar.clone heap1 0).2 = heap1.read 0 :=
  ⟨by decide, (jar_clone_independent heap1 0 (by decide)).1⟩

/-- Claim C10: cloning a `CookiesEnabledService` deep-copies its store into
a fresh cell: the handles differ, the snapshot agrees, and a `call` made
through either service never changes the other's store cell, so cookies
ingested through one never appear in queries through the other. -/
theorem service_clone_independent (Ctx : Type) (h : Heap)
    (svc : CookiesEnabledService Ctx) (hlt : svc.store < h.cells.length) :
    ((CookiesEnabledService.clone h svc).2).store ≠ svc.store ∧
    (CookiesEnabledService.clone h svc).1.read
        ((CookiesEnabledService.clone h svc).2).store = h.read svc.store ∧
    (∀ req now,
      ((CookiesEnabledService.call (CookiesEnabledService.clone h svc).1 svc
          req now).1).read ((CookiesEnabledService.clone h svc).2).store
        = h.read svc.store) ∧
    (∀ req now,
      ((CookiesEnabledService.call (CookiesEnabledService.clone h svc).1
          (CookiesEnabledService.clone h svc).2 req now).1).read svc.store
        = h.read svc.store) ∧
    (∀ req now url t,
      Jar.cookies
          (((CookiesEnabledService.call (CookiesEnabledService.clone h svc).1
              svc req now).1).read ((CookiesEnabledService.clone h svc).2).store)
          url t
        = Jar.cookies (h.read svc.store) url t) := by
  have hne : ((CookiesEnabledService.clone h svc).2).store ≠ svc.store :=
    Ne.symm (Nat.ne_of_lt hlt)
  have hr : (CookiesEnabledService.clone h svc).1.read
      ((CookiesEnabledService.clone h svc).2).store = h.read svc.store :=
    Heap.read_clone_fresh h svc.store
  have hcall : ∀ req now,
      ((CookiesEnabledService.call (CookiesEnabledService.clone h svc).1 svc
          req now).1).read ((CookiesEnabledService.clone h svc).2).store
        = h.read svc.store := by
    intro req now
    rw [call_preserves_other_cell _ svc req now _ hne]
    exact hr
  refine ⟨hne, hr, hcall, ?_, ?_⟩
  · intro req now
    rw [call_preserves_other_cell _ _ req now _ (fun hh => hne hh.symm)]
    exact Heap.read_clone_old h svc.store svc.store hlt
  · intro req now url t
    rw [hcall req now]

/-- Witness for C10 at a concrete one-record heap and service. -/
theorem service_clone_independent_witness :
    svcOkW.store < heap1.cells.length ∧
    ((CookiesEnabledService.clone heap1 svcOkW).2).store ≠ svcOkW.store :=
  ⟨by decide, (service_clone_independent Unit heap1 svcOkW (by decide)).1⟩

/-- Claim C6: `set_cookies` is total — it never fails or propagates an error
(witnessed by its type) — and on a mixed sequence the malformed entries are
dropped locally (removing them does not change the result) while every
well-formed entry is still ingested: a record with its resolved key ends up
in the store. -/
theorem set_cookies_drops_malformed (st : JarState) (hs : List String)
    (url : Url) (now : Int) :
    Jar.set_cookies st hs url now
      = Jar.set_cookies st (hs.filter (fun t => (Cookie.parse t).isSome))
          url now
    ∧ ∀ t ∈ hs, ∀ c, Cookie.parse t = some c →
        ∃ x ∈ Jar.set_cookies st hs url now,
          sameKey (resolveCookie c url now) x = true := by
  constructor
  · unfold Jar.set_cookies
    rw [filterMap_filter_isSome]
  · intro t ht c hc
    unfold Jar.set_cookies
    exact store_mem_key _ st c url now (List.mem_filterMap.mpr ⟨t, ht, hc⟩)

/-- The parse result of the well-formed entry used in the C6 witness. -/
def cW1 : ParsedCookie :=
  { name := "x", value := "1", domain := none, path := none, secure := false,
    httpOnly := false, sameSite := none, maxAge := none, expiresAt := none }

/-- Witness for C6: a sequence with one malformed entry still ingests the
well-formed one. -/
theorem set_cookies_drops_malformed_witness :
    ("x=1" ∈ (["x=1", "@@@"] : List String)) ∧
    Cookie.parse "x=1" = some cW1 ∧
    ∃ x ∈ Jar.set_cookies [] ["x=1", "@@@"] urlW 0,
      sameKey (resolveCookie cW1 urlW 0) x = true :=
  ⟨by decide, by decide,
    (set_cookies_drops_malformed [] ["x=1", "@@@"] urlW 0).2 "x=1" (by decide)
      cW1 (by decide)⟩

/-- Claim C4: `cookies` returns `none` exactly when no non-expired matching
record exists or the composed header text is not a valid header value, and
otherwise returns the matching pairs rendered as `name=value` joined by
`"; "` in a single header value. -/
theorem cookies_none_iff (st : JarState) (url : Url) (now : Int) :
    (Jar.cookies st url now = none ↔
      ((∀ r ∈ st, cookieMatches r url now = false) ∨
        isValidHeaderCs
            (joinCs ((Jar.get_request_values st url now).map fmtPairCs))
          = false))
    ∧ (Jar.get_request_values st url now ≠ [] →
        isValidHeaderCs
            (joinCs ((Jar.get_request_values st url now).map fmtPairCs))
          = true →
        Jar.cookies st url now
          = some (String.mk
              (joinCs ((Jar.get_request_values st url now).map fmtPairCs)))) := by
  by_cases hnil : Jar.get_request_values st url now = []
  · constructor
    · rw [Jar.cookies_eq, hnil]
      simp only [List.map_nil, joinCs, List.isEmpty_nil, if_true]
      exact ⟨fun _ => Or.inl ((get_request_values_eq_nil st url now).mp hnil),
        fun _ => trivial⟩
    · intro hne
      exact absurd hnil hne
  · have hjoin : joinCs ((Jar.get_request_values st url now).map fmtPairCs)
        ≠ [] := joinCs_fmt_ne_nil _ hnil
    have hempty : (joinCs ((Jar.get_request_values st url now).map
        fmtPairCs)).isEmpty = false := by
      cases hj : joinCs ((Jar.get_request_values st url now).map fmtPairCs) with
      | nil => exact absurd hj hjoin
      | cons a l => rfl
    constructor
    · rw [Jar.cookies_eq, hempty]
      simp only [Bool.false_eq_true, if_false]
      constructor
      · intro hnone
        cases hv : isValidHeaderCs
            (joinCs ((Jar.get_request_values st url now).map fmtPairCs)) with
        | false => exact Or.inr rfl
        | true => rw [hv] at hnone; simp at hnone
      · intro hrh
        rcases hrh with hall | hv
        · exact absurd ((get_request_values_eq_nil st url now).mpr hall) hnil
        · rw [hv]
          simp
    · intro _ hv
      rw [Jar.cookies_eq, hempty, hv]
      simp

/-- Witness for C4: a matching record rendered into a Cookie header. -/
theorem cookies_none_iff_witness :
    Jar.get_request_values [recW] urlW 0 ≠ [] ∧
    isValidHeaderCs
        (joinCs ((Jar.get_request_values [recW] urlW 0).map fmtPairCs))
      = true ∧
    Jar.cookies [recW] urlW 0
      = some (String.mk
          (joinCs ((Jar.get_request_values [recW] urlW 0).map fmtPairCs))) :=
  ⟨by decide, by decide,
    (cookies_none_iff [recW] urlW 0).2 (by decide) (by decide)⟩

/-- Claim C1 (amended): for a Set-Cookie text `T` that parses to `c`,
ingesting `[T]` for `U` into a fresh store and then querying `U` at the same
time returns Some header value containing the parsed `name=value` pair,
provided the resolved record matches `U` under the store's matching
predicate (not expired, domain matches the host, path is a prefix of the
URL's path, and Secure only over an encrypted scheme) and the rendered
`name=value` text is valid header text. -/
theorem ingest_then_query_contains_pair (T : String) (U : Url) (now : Int)
    (c : ParsedCookie)
    (hp : Cookie.parse T = some c)
    (hm : cookieMatches (resolveCookie c U now) U now = true)
    (hv : isValidHeaderCs (fmtPairCs (c.name, c.value)) = true) :
    ∃ s : String,
      Jar.cookies (Jar.set_cookies [] [T] U now) U now = some s ∧
      ∃ pre post : List Char,
        s.data = pre ++ fmtPairCs (c.name, c.value) ++ post := by
  have hset : Jar.set_cookies [] [T] U now = [resolveCookie c U now] := by
    simp [Jar.set_cookies, List.filterMap_cons, hp, store_response_cookies,
      upsert]
  have hgrv : Jar.get_request_values [resolveCookie c U now] U now
      = [(c.name, c.value)] := by
    simp only [Jar.get_request_values, List.filter, hm, sortByPathLen,
      insertByPathLen, List.map]
    rfl
  refine ⟨String.mk (fmtPairCs (c.name, c.value)), ?_, [], [], by simp⟩
  rw [hset, Jar.cookies_eq, hgrv]
  have hne : (fmtPairCs (c.name, c.value)).isEmpty = false := by
    cases hf : fmtPairCs (c.name, c.value) with
    | nil => exact absurd hf (fmtPairCs_ne_nil (c.name, c.value))
    | cons a l => rfl
  simp only [List.map_cons, List.map_nil, joinCs, hne, hv,
    Bool.false_eq_true, if_false, if_true]

/-- The parse result of the cookie text used in the C1 witness. -/
def cWit : ParsedCookie :=
  { name := "sid", value := "42", domain := none, path := none,
    secure := false, httpOnly := false, sameSite := none, maxAge := none,
    expiresAt := none }

/-- Witness for C1 at a concrete cookie and URL. -/
theorem ingest_then_query_contains_pair_witness :
    Cookie.parse "sid=42" = some cWit ∧
    cookieMatches (resolveCookie cWit urlW 0) urlW 0 = true ∧
    isValidHeaderCs (fmtPairCs (cWit.name, cWit.value)) = true ∧
    ∃ s : String,
      Jar.cookies (Jar.set_cookies [] ["sid=42"] urlW 0) urlW 0 = some s ∧
      ∃ pre post : List Char,
        s.data = pre ++ fmtPairCs (cWit.name, cWit.value) ++ post :=
  ⟨by decide, by decide, by decide,
    ingest_then_query_contains_pair "sid=42" urlW 0 cWit (by decide)
      (by decide) (by decide)⟩

/-- The parse result of the counterexample's Set-Cookie text. -/
def cCex : ParsedCookie :=
  { name := "sid", value := "42", domain := none, path := none,
    secure := true, httpOnly := false, sameSite := none, maxAge := none,
    expiresAt := none }

/-- The counterexample's non-encrypted URL. -/
def urlCex : Url := { scheme := "http", host := "a.test", path := "/" }

/-- Counterexample to claim C1 as stated: `"sid=42; Secure"` is a valid
Set-Cookie text (it parses) and is not expired at ingestion time (it has no
expiration at all), yet after `set_cookies` for the http URL `urlCex` the
query `cookies(urlCex)` returns `none`, not Some value containing
`sid=42`. -/
theorem ingest_then_query_counterexample :
    Cookie.parse "sid=42; Secure" = some cCex ∧
    (resolveCookie cCex urlCex 0).expiresAt = none ∧
    Jar.cookies (Jar.set_cookies [] ["sid=42; Secure"] urlCex 0) urlCex 0
      = none :=
  ⟨by decide, by decide, by decide⟩
